import Mathlib

/-!
# Verification of the goimagetool native ext2 codec

Shallow embedding of `src/internal/fs/ext2/ext2.go` (native ext2 reader
`Load` and writer `Store`) and of the `memfs` in-memory filesystem it
consumes and produces, together with proofs settling the frozen claims
about the codec.

Modelling conventions:
* Go byte slices (`[]byte`) are modelled as `ByteSeq`: a length together
  with a byte-valued function on offsets (values kept `< 256` by
  construction).  Offsets and machine integers are `Nat` with explicit
  `% 2^w` truncation where the Go code converts between widths; Go `int`
  block numbers that use `-1` as a marker (the writer's allocation plans)
  are `Int`.
* `binary.Read`/`binary.Write` of the little-endian on-disk structures
  are modelled field-by-field at the byte offsets of the packed Go
  structs (superblock 454 bytes, group descriptor 32, inode 128,
  directory-entry header 8).
* Go strings are Lean `String`s; the byte view of a string is
  `strBytes` (code points — faithful for the ASCII names used here).
* The reader's unbounded directory recursion is modelled with an
  explicit fuel parameter (`walkDirF`); Go's recursion terminates on an
  input exactly when some fuel suffices, and an execution that runs out
  of every fuel corresponds to a non-terminating Go execution.
* Go runtime panics (slice index out of range in the writer's bitmap
  marking) are modelled as the explicit error `StoreErr.panicOutOfRange`.
-/

namespace Ext2

set_option maxRecDepth 100000 in
set_option maxHeartbeats 64000000 in
/-- A Go `[]byte`: a length plus a byte
function (out-of-range reads are never performed by the modelled code
without a preceding bounds check). -/
structure ByteSeq where
  size : Nat
  get : Nat → Nat

/-- The empty byte slice. -/
def ByteSeq.empty : ByteSeq := ⟨0, fun _ => 0⟩

/-- Byte slice from an explicit list of bytes. -/
def ByteSeq.ofList (l : List Nat) : ByteSeq := ⟨l.length, fun i => l.getD i 0⟩

/-- Materialise the bytes of a `ByteSeq` as a list. -/
def ByteSeq.toList (b : ByteSeq) : List Nat := (List.range b.size).map b.get

/-- Concatenation of byte slices (`Buffer.Write`). -/
def ByteSeq.append (x y : ByteSeq) : ByteSeq :=
  ⟨x.size + y.size, fun i => if i < x.size then x.get i else y.get (i - x.size)⟩

/-- Little-endian 16-bit read at an offset (bounds already checked by callers). -/
def le16at (b : ByteSeq) (o : Nat) : Nat := b.get o + 256 * b.get (o + 1)

/-- Little-endian 32-bit read at an offset. -/
def le32at (b : ByteSeq) (o : Nat) : Nat :=
  b.get o + 256 * b.get (o + 1) + 65536 * b.get (o + 2) + 16777216 * b.get (o + 3)

/-- Little-endian 16-bit read from a byte list (used on directory payloads). -/
def le16l (l : List Nat) (o : Nat) : Nat := l.getD o 0 + 256 * l.getD (o + 1) 0

/-- Little-endian 32-bit read from a byte list. -/
def le32l (l : List Nat) (o : Nat) : Nat :=
  l.getD o 0 + 256 * l.getD (o + 1) 0 + 65536 * l.getD (o + 2) 0 + 16777216 * l.getD (o + 3) 0

/-- Byte `k` of the little-endian encoding of `v`. -/
def leByte (v k : Nat) : Nat := v / 256 ^ k % 256

/-- Little-endian bytes of a 16-bit value. -/
def u16le (v : Nat) : List Nat := [leByte v 0, leByte v 1]

/-- Little-endian bytes of a 32-bit value. -/
def u32le (v : Nat) : List Nat := [leByte v 0, leByte v 1, leByte v 2, leByte v 3]

/-- The uint32 predecessor `n-1` (Go computes `int(n-1)` on a `uint32`,
so `n = 0` wraps to `4294967295`). -/
def u32pred (n : Nat) : Nat := (n + 4294967295) % 4294967296

/-- Truncate an `Int` Unix timestamp to `uint32` as Go's
`uint32(t.Unix())` does. -/
def u32ofTime (t : Int) : Nat := (t % 4294967296).toNat

/-- Byte view of a Go string (code points; faithful for ASCII). -/
def strBytes (s : String) : List Nat := s.toList.map Char.toNat

/-- String from raw bytes (inverse of `strBytes` on ASCII data). -/
def strOfBytes (l : List Nat) : String := String.mk (l.map Char.ofNat)

/-- Everything before the final `/` of a character list (the final `/`
excluded). -/
def dirChars (cs : List Char) : List Char :=
  ((cs.reverse.dropWhile (fun c => c ≠ '/')).drop 1).reverse

/-- Models Go `path.Dir` on cleaned absolute slash paths: everything before
the final component, `"/"` when the result would be empty. -/
def pathDir (p : String) : String :=
  let cs := dirChars p.toList
  if cs = [] then "/" else String.mk cs

/-- Models Go `path.Base` on cleaned absolute slash paths: the final
component. -/
def pathBase (p : String) : String :=
  String.mk (p.toList.reverse.takeWhile (fun c => c ≠ '/')).reverse

/-- Models Go `path.Join(parent, name)` for a cleaned absolute `parent`
and a clean single-component `name`, as produced by the reader's walk. -/
def pathJoin (parent name : String) : String :=
  if parent = "/" then "/" ++ name else parent ++ "/" ++ name

/-- Go `<` on strings: lexicographic byte order (code-point order here,
identical on ASCII data). -/
def charListLt : List Char → List Char → Bool
  | [], [] => false
  | [], _ :: _ => true
  | _ :: _, [] => false
  | a :: as, b :: bs =>
    if a.toNat < b.toNat then true
    else if b.toNat < a.toNat then false
    else charListLt as bs

/-- Go string comparison `a < b`. -/
def strLt (a b : String) : Bool := charListLt a.toList b.toList

/-- Insert a string into a sorted list (ascending Go byte order). -/
def insertStr (x : String) : List String → List String
  | [] => [x]
  | y :: ys => if strLt x y then x :: y :: ys else y :: insertStr x ys

/-- Models Go `sort.Strings` (keys here are unique, so stability is moot). -/
def sortStrings (l : List String) : List String := l.foldr insertStr []

end Ext2

namespace Ext2

/-! ## The memfs in-memory filesystem (package `memfs`)

`memfs.FS` is a Go map from cleaned absolute path to `*Entry`.  The map
is modelled as a list of entries with unique names (insertion order;
every consumer of the map sorts its keys before iterating, so the
missing map order is irrelevant).  `memfs.Mode` constants are the POSIX
type bits: FIFO `0o010000`, char `0o020000`, dir `0o040000`, block
`0o060000`, file `0o100000`, link `0o120000`. -/

/-- `memfs.Entry`. `Data` is a byte slice; `MTime` is Unix seconds. -/
structure Entry where
  name : String
  mode : Nat
  uid : Nat
  gid : Nat
  mtime : Int
  data : ByteSeq
  target : String
  rdevMajor : Nat
  rdevMinor : Nat

/-- A Go zero-valued `Entry` with a name and mode. -/
def Entry.base (name : String) (mode : Nat) : Entry :=
  ⟨name, mode, 0, 0, 0, ByteSeq.empty, "", 0, 0⟩

/-- `memfs.FS`: entry list standing for the Go path-keyed map. -/
abbrev MemFS : Type := List Entry

/-- `memfs.New()`: just the root directory, mode `ModeDir|0o755`. -/
def MemFS.new : MemFS := [Entry.base "/" (0o040000 ||| 0o755)]

/-- Map lookup `fs.m[p]`. -/
def MemFS.find? (fs : MemFS) (p : String) : Option Entry :=
  List.find? (fun e => e.name = p) fs

/-- Key presence. -/
def MemFS.contains (fs : MemFS) (p : String) : Bool := (fs.find? p).isSome

/-- Map store `fs.m[p] = e`: replace an existing entry or add a new key. -/
def MemFS.set (fs : MemFS) (e : Entry) : MemFS :=
  if fs.contains e.name then
    fs.map (fun x => if x.name = e.name then e else x)
  else fs ++ [e]

/-- The keys of the map (unordered in Go; every consumer sorts them). -/
def MemFS.names (fs : MemFS) : List String := fs.map Entry.name

/-- Models `memfs.clean` for the already-cleaned absolute paths produced
by the ext2 codec (the general Go version also normalises `.`, `..`
and separators, which never occur on this boundary). -/
def cleanPath (p : String) : String := if p = "" then "/" else p

/-- `strings.Split` on `/` over a character list. -/
def splitSlash (cs : List Char) : List (List Char) :=
  cs.foldr
    (fun c acc =>
      if c = '/' then [] :: acc
      else match acc with
        | h :: t => (c :: h) :: t
        | [] => [[c]])
    [[]]

/-- The successive prefixes `cur` built by `memfs.MkdirAll`'s loop over
`strings.Split(d, "/")[1:]`. -/
def mkdirPrefixes (d : String) : List String :=
  (((splitSlash d.toList).drop 1).foldl
    (fun (acc : List String × String) part =>
      let cur := acc.2 ++ "/" ++ String.mk part
      (acc.1 ++ [cur], cur))
    ([], "")).1

/-- `memfs.MkdirAll`: create each missing path prefix as a directory
entry with mode `ModeDir|0o755`. -/
def MemFS.mkdirAll (fs : MemFS) (dir : String) (uid gid : Nat) (mt : Int) : MemFS :=
  (mkdirPrefixes (cleanPath dir)).foldl
    (fun fs cur =>
      if fs.contains cur then fs
      else fs ++ [{ Entry.base cur (0o040000 ||| 0o755) with uid := uid, gid := gid, mtime := mt }])
    fs

/-- `memfs.(*FS).PutFile`. -/
def MemFS.putFile (fs : MemFS) (p : String) (data : ByteSeq) (mode uid gid : Nat) (mt : Int) : MemFS :=
  let p := cleanPath p
  let fs := fs.mkdirAll (pathDir p) uid gid mt
  let mode := if mode &&& 0o100000 = 0 ∧ mode &&& 0o040000 = 0 ∧ mode &&& 0o120000 = 0
    then mode ||| 0o100000 else mode
  fs.set { Entry.base p mode with uid := uid, gid := gid, mtime := mt, data := data }

/-- `memfs.(*FS).PutDirMode`. -/
def MemFS.putDirMode (fs : MemFS) (p : String) (mode uid gid : Nat) (mt : Int) : MemFS :=
  let p := cleanPath p
  let fs := fs.mkdirAll p uid gid mt
  let mode := if mode &&& 0o040000 = 0 then mode ||| 0o040000 else mode
  fs.set { Entry.base p mode with uid := uid, gid := gid, mtime := mt }

/-- `memfs.(*FS).PutDir`. -/
def MemFS.putDir (fs : MemFS) (p : String) (uid gid : Nat) (mt : Int) : MemFS :=
  fs.putDirMode p (0o040000 ||| 0o755) uid gid mt

/-- `memfs.(*FS).PutSymlink`. -/
def MemFS.putSymlink (fs : MemFS) (dst target : String) (uid gid : Nat) (mt : Int) : MemFS :=
  let dst := cleanPath dst
  let fs := fs.mkdirAll (pathDir dst) uid gid mt
  fs.set { Entry.base dst (0o120000 ||| 0o777) with
    uid := uid, gid := gid, mtime := mt, target := target }

/-- `memfs.(*FS).PutNode` (devices and fifos). -/
def MemFS.putNode (fs : MemFS) (dst : String) (typ perm uid gid major minor : Nat) (mt : Int) : MemFS :=
  let dst := cleanPath dst
  let fs := fs.mkdirAll (pathDir dst) uid gid mt
  fs.set { Entry.base dst (typ ||| (perm &&& 0o7777)) with
    uid := uid, gid := gid, mtime := mt, rdevMajor := major, rdevMinor := minor }

end Ext2

namespace Ext2

/-! ## Reader (`Load` in ext2.go) -/

/-- Errors surfaced by the reader.  `tooSmall`, `notExt2`, `unsupported`
(`common.ErrUnsupported`), `unexpectedEOF` (`io.ErrUnexpectedEOF` from
`readAt`) and `notDir` (`fmt.Errorf("inode %d not a dir", inum)`) mirror
the Go errors; `fuelOut` is the fuel-model marker standing for an
execution that has not finished within the given recursion budget. -/
inductive LoadErr where
  | tooSmall
  | notExt2
  | unsupported
  | unexpectedEOF
  | notDir (inum : Nat)
  | fuelOut
deriving DecidableEq, Repr

/-- The fields of the 454-byte packed `superblock` struct that the codec
reads or writes, at their little-endian byte offsets: InodesCount 0,
BlocksCount 4, FreeBlocksCount 12, FreeInodesCount 16, FirstDataBlock 20,
LogBlockSize 24, BlocksPerGroup 32, InodesPerGroup 40, MTime 44, WTime 48,
Magic 56 (u16), State 58 (u16), RevLevel 76, FirstIno 84, InodeSize 88
(u16).  Every remaining field is zero in writer output and ignored by the
reader. -/
structure Superblock where
  inodesCount : Nat := 0
  blocksCount : Nat := 0
  freeBlocksCount : Nat := 0
  freeInodesCount : Nat := 0
  firstDataBlock : Nat := 0
  logBlockSize : Nat := 0
  blocksPerGroup : Nat := 0
  inodesPerGroup : Nat := 0
  mtime : Nat := 0
  wtime : Nat := 0
  magic : Nat := 0
  state : Nat := 0
  revLevel : Nat := 0
  firstIno : Nat := 0
  inodeSize : Nat := 0
deriving DecidableEq, Repr

/-- `binary.Size(superblock{})`: the packed struct is 454 bytes. -/
def sbSize : Nat := 454

/-- `readAt(b, off, &sb)`: bounds check then little-endian field decode. -/
def readSuperblockAt (b : ByteSeq) (off : Nat) : Except LoadErr Superblock :=
  if off + sbSize ≤ b.size then
    .ok {
      inodesCount := le32at b off
      blocksCount := le32at b (off + 4)
      freeBlocksCount := le32at b (off + 12)
      freeInodesCount := le32at b (off + 16)
      firstDataBlock := le32at b (off + 20)
      logBlockSize := le32at b (off + 24)
      blocksPerGroup := le32at b (off + 32)
      inodesPerGroup := le32at b (off + 40)
      mtime := le32at b (off + 44)
      wtime := le32at b (off + 48)
      magic := le16at b (off + 56)
      state := le16at b (off + 58)
      revLevel := le32at b (off + 76)
      firstIno := le32at b (off + 84)
      inodeSize := le16at b (off + 88) }
  else .error .unexpectedEOF

/-- `getBlockSize`: reject a block-size exponent above 2, else
`1024 << LogBlockSize`. -/
def getBlockSize (sb : Superblock) : Except LoadErr Nat :=
  if sb.logBlockSize > 2 then .error .unsupported
  else .ok (1024 <<< sb.logBlockSize)

/-- The three fields of the 32-byte packed `groupDesc` struct the codec
uses: BlockBitmap at offset 0, InodeBitmap at 4, InodeTable at 8. -/
structure GroupDesc where
  blockBitmap : Nat := 0
  inodeBitmap : Nat := 0
  inodeTable : Nat := 0
deriving DecidableEq, Repr

/-- `binary.Size(groupDesc{})` is 32 bytes. -/
def gdSize : Nat := 32

/-- `readAt(b, off, &gd)`. -/
def readGroupDescAt (b : ByteSeq) (off : Nat) : Except LoadErr GroupDesc :=
  if off + gdSize ≤ b.size then
    .ok { blockBitmap := le32at b off
          inodeBitmap := le32at b (off + 4)
          inodeTable := le32at b (off + 8) }
  else .error .unexpectedEOF

/-- The 128-byte packed `inode` struct, at little-endian offsets:
Mode 0 (u16), UID 2 (u16), Size 4, ATime 8, CTime 12, MTime 16, DTime 20,
GID 24 (u16), LinksCount 26 (u16), Blocks 28, Flags 32, OSD1 36,
Block[15] 40..99, Gen 100, FileACL 104, DirACL 108, Faddr 112; the
12-byte OSD2 tail (116..127) is always zero and is not carried. -/
structure InodeRec where
  mode : Nat := 0
  uid : Nat := 0
  size : Nat := 0
  atime : Nat := 0
  ctime : Nat := 0
  mtime : Nat := 0
  dtime : Nat := 0
  gid : Nat := 0
  linksCount : Nat := 0
  blocks : Nat := 0
  flags : Nat := 0
  osd1 : Nat := 0
  block : List Nat := List.replicate 15 0
  gen : Nat := 0
  fileACL : Nat := 0
  dirACL : Nat := 0
  faddr : Nat := 0
deriving DecidableEq, Repr

/-- `binary.Size(inode{})` is 128 bytes (`inodeSize` constant in ext2.go). -/
def inodeStructSize : Nat := 128

/-- `readAt(b, off, &ino)`: bounds check then decode of every field. -/
def readInodeAt (b : ByteSeq) (off : Nat) : Except LoadErr InodeRec :=
  if off + inodeStructSize ≤ b.size then
    .ok {
      mode := le16at b off
      uid := le16at b (off + 2)
      size := le32at b (off + 4)
      atime := le32at b (off + 8)
      ctime := le32at b (off + 12)
      mtime := le32at b (off + 16)
      dtime := le32at b (off + 20)
      gid := le16at b (off + 24)
      linksCount := le16at b (off + 26)
      blocks := le32at b (off + 28)
      flags := le32at b (off + 32)
      osd1 := le32at b (off + 36)
      block := (List.range 15).map (fun i => le32at b (off + 40 + 4 * i))
      gen := le32at b (off + 100)
      fileACL := le32at b (off + 104)
      dirACL := le32at b (off + 108)
      faddr := le32at b (off + 112) }
  else .error .unexpectedEOF

/-- The reader's `getInode` closure: resolve inode number `n` at
`inodeTableOff + int(n-1)*iSize` (uint32 wrap-around on `n-1`) and decode
the 128-byte record there.  The declared superblock inode count is never
consulted: the only failure is `readAt` running past the buffer. -/
def getInode (b : ByteSeq) (itOff isz n : Nat) : Except LoadErr InodeRec :=
  readInodeAt b (itOff + u32pred n * isz)

/-- The contents of pointer block `p`: `block_size/4` little-endian u32s. -/
def readPtrBlock (b : ByteSeq) (bsz p : Nat) : List Nat :=
  (List.range (bsz / 4)).map (fun i => le32at b (p * bsz + 4 * i))

/-- The reader's indirect loop body: expand each pointer in order,
stopping at the first zero pointer. -/
def expandSeq (f : Nat → Except LoadErr (List Nat)) : List Nat → Except LoadErr (List Nat)
  | [] => .ok []
  | q :: rest =>
    if q = 0 then .ok []
    else do
      let sub ← f q
      let tail ← expandSeq f rest
      .ok (sub ++ tail)

/-- The reader's `expandBlocks` closure: resolve an indirect pointer of
the given level into the ordered list of data-block numbers. -/
def expandBlocks (b : ByteSeq) (bsz : Nat) : Nat → Nat → Except LoadErr (List Nat)
  | level, p =>
    if p = 0 then .ok []
    else match level with
      | 0 => .ok [p]
      | l + 1 =>
        if p * bsz + bsz ≤ b.size then
          expandSeq (expandBlocks b bsz l) (readPtrBlock b bsz p)
        else .error .unexpectedEOF

/-- The reader's byte-assembly loop over resolved blocks: take `min(bsz,
left)` bytes per block while bytes remain, with a bounds check per chunk.
The accumulated buffer is a `ByteSeq` (a Go `[]byte`): a chunk is the
slice view `b[off : off+chunk]`. -/
def takeBlocks (b : ByteSeq) (bsz : Nat) : List Nat → Nat → Except LoadErr ByteSeq
  | _, 0 => .ok ByteSeq.empty
  | [], _ => .ok ByteSeq.empty
  | blk :: rest, left =>
    let chunk := min bsz left
    if blk * bsz + chunk ≤ b.size then do
      let tail ← takeBlocks b bsz rest (left - chunk)
      .ok (ByteSeq.append ⟨chunk, fun k => b.get (blk * bsz + k)⟩ tail)
    else .error .unexpectedEOF

/-- The reader's `readFileData` closure: direct pointers, then levels
1/2/3, then assembly truncated to the declared size. -/
def readFileData (b : ByteSeq) (bsz : Nat) (ino : InodeRec) : Except LoadErr ByteSeq :=
  if ino.blocks = 0 ∧ ino.size = 0 then .ok ByteSeq.empty
  else do
    let direct := (ino.block.take 12).filter (· ≠ 0)
    let l1 ← (if ino.block.getD 12 0 ≠ 0 then expandBlocks b bsz 1 (ino.block.getD 12 0) else .ok [])
    let l2 ← (if ino.block.getD 13 0 ≠ 0 then expandBlocks b bsz 2 (ino.block.getD 13 0) else .ok [])
    let l3 ← (if ino.block.getD 14 0 ≠ 0 then expandBlocks b bsz 3 (ino.block.getD 14 0) else .ok [])
    takeBlocks b bsz (direct ++ l1 ++ l2 ++ l3) ino.size

/-- One parsed record of the 8-byte `dirent` header plus name, as read
by the reader's directory loop. -/
structure DirEnt where
  ino : Nat
  recLen : Nat
  nameLen : Nat
  fileType : Nat
  name : List Nat
deriving DecidableEq, Repr

/-- The record-scanning loop of `walkDir` over a directory's payload:
starting at offset `p`, stop at a zero inode, a zero record length, or a
record or name that runs past the payload, else collect the entry and
jump to `p + record_length`.  The structural fuel argument dominates the
iteration count (each iteration advances by at least one byte), so
`parseDirents` below always runs the loop to completion. -/
def parseFrom (data : ByteSeq) : Nat → Nat → List DirEnt
  | 0, _ => []
  | fuel + 1, p =>
    if p + 8 ≤ data.size then
      let ino := le32at data p
      let rl := le16at data (p + 4)
      if ino = 0 ∨ rl = 0 then []
      else
        if p + rl > data.size then []
        else
          let nlen := data.get (p + 6)
          if 8 + nlen > rl ∨ p + 8 + nlen > data.size then []
          else
            ⟨ino, rl, nlen, data.get (p + 7),
              (List.range nlen).map (fun k => data.get (p + 8 + k))⟩
              :: parseFrom data fuel (p + rl)
    else []

/-- All directory entries of a payload, in scan order. -/
def parseDirents (data : ByteSeq) : List DirEnt := parseFrom data (data.size + 1) 0

/-- `inlineSymlinkFromInode`: reassemble the 60 raw bytes stored in the
15-entry pointer array and truncate to the declared size. -/
def inlineSymlinkFromInode (ino : InodeRec) : String :=
  let raw := (ino.block.map u32le).flatten
  let n := min ino.size raw.length
  strOfBytes (raw.take n)

/-- `inlineSymlinkPack`: copy the target into a 60-byte buffer and pack
four bytes per u32 pointer slot. -/
def inlineSymlinkPack (target : String) : List Nat :=
  let buf := (strBytes target ++ List.replicate 60 0).take 60
  (List.range 15).map (fun i =>
    buf.getD (4 * i) 0 + 256 * buf.getD (4 * i + 1) 0
      + 65536 * buf.getD (4 * i + 2) 0 + 16777216 * buf.getD (4 * i + 3) 0)

/-- The per-entry body of `walkDir`'s loop: skip dots, read the child
inode and dispatch on its type bits, recursing through `walk` for
subdirectories. -/
def procEnts (b : ByteSeq) (bsz itOff isz : Nat)
    (walk : Nat → String → MemFS → Except LoadErr MemFS) :
    List DirEnt → String → MemFS → Except LoadErr MemFS
  | [], _, fs => .ok fs
  | de :: rest, parent, fs => do
    let name := strOfBytes de.name
    if name = "." ∨ name = ".." then procEnts b bsz itOff isz walk rest parent fs
    else do
      let child ← getInode b itOff isz de.ino
      let full := pathJoin parent name
      let mt : Int := Int.ofNat child.mtime
      let fs ← (match child.mode &&& 0xF000 with
        | 0x4000 =>
          walk de.ino full (fs.putDirMode full child.mode child.uid child.gid mt)
        | 0x8000 => do
          let fdata ← readFileData b bsz child
          .ok (fs.putFile full fdata child.mode child.uid child.gid mt)
        | 0xA000 =>
          if child.size ≤ 60 then
            .ok (fs.putSymlink full (inlineSymlinkFromInode child) child.uid child.gid mt)
          else do
            let fdata ← readFileData b bsz child
            .ok (fs.putSymlink full (strOfBytes fdata.toList) child.uid child.gid mt)
        | 0x2000 =>
          let r := child.block.getD 0 0
          .ok (fs.putNode full 0o020000 (child.mode &&& 0o7777) child.uid child.gid
            ((r >>> 8) &&& 0xff) (r &&& 0xff) mt)
        | 0x6000 =>
          let r := child.block.getD 0 0
          .ok (fs.putNode full 0o060000 (child.mode &&& 0o7777) child.uid child.gid
            ((r >>> 8) &&& 0xff) (r &&& 0xff) mt)
        | 0x1000 =>
          .ok (fs.putNode full 0o010000 (child.mode &&& 0o7777) child.uid child.gid 0 0 mt)
        | _ => .ok fs)
      procEnts b bsz itOff isz walk rest parent fs

/-- The reader's recursive `walkDir`, with explicit fuel standing for
recursion depth: read the directory inode, reject non-directories,
resolve and scan its payload, and process each entry (no visited-inode
set exists in the code: revisiting a directory consumes fresh fuel). -/
def walkDirF (b : ByteSeq) (bsz itOff isz : Nat) :
    Nat → Nat → String → MemFS → Except LoadErr MemFS
  | 0, _, _, _ => .error .fuelOut
  | fuel + 1, inum, parent, fs => do
    let ino ← getInode b itOff isz inum
    if ino.mode &&& 0x4000 = 0 then .error (.notDir inum)
    else do
      let data ← readFileData b bsz ino
      procEnts b bsz itOff isz (walkDirF b bsz itOff isz fuel) (parseDirents data) parent fs

/-- `Load` with an explicit recursion budget: superblock validation,
group-descriptor read, root `PutDir`, then the walk from root inode 2. -/
def ext2LoadFuel (b : ByteSeq) (fuel : Nat) : Except LoadErr MemFS :=
  if b.size < 2048 then .error .tooSmall
  else do
    let sb ← readSuperblockAt b 1024
    if sb.magic ≠ 0xEF53 then .error .notExt2
    else if sb.revLevel < 1 then .error .unsupported
    else do
      let bsz ← getBlockSize sb
      let gdtBlock := if bsz > 1024 then 1 else 2
      let gd ← readGroupDescAt b (gdtBlock * bsz)
      let itOff := gd.inodeTable * bsz
      let isz := if sb.inodeSize = 0 then inodeStructSize else sb.inodeSize
      let fs := MemFS.new.putDir "/" 0 0 (Int.ofNat sb.mtime)
      walkDirF b bsz itOff isz fuel 2 "/" fs

/-- `Load`: the fuel `size+1` dominates the recursion depth of every
terminating Go execution (each recursion level needs a distinct
directory inode record inside the buffer). -/
def ext2Load (b : ByteSeq) : Except LoadErr MemFS := ext2LoadFuel b (b.size + 1)

end Ext2

namespace Ext2

/-! ## Writer (`Store` in ext2.go) -/

/-- Writer failures.  `unsupportedBlockSize` is the explicit
`fmt.Errorf("unsupported blockSize: ...")`; `panicOutOfRange` models the
Go runtime panic raised when the bitmap-marking helpers index past the
one-block bitmap slices (`blkMap[bn/8]` with `bn/8 >= bsz`).  No other
error value exists in the writer. -/
inductive StoreErr where
  | unsupportedBlockSize
  | panicOutOfRange
deriving DecidableEq, Repr

/-- The block-size switch at the top of `Store`: `0` silently becomes the
1024-byte default, `1024/2048/4096` are accepted, anything else errors. -/
def chooseBsz (blockSize : Nat) : Except StoreErr Nat :=
  if blockSize = 0 ∨ blockSize = 1024 then .ok 1024
  else if blockSize = 2048 ∨ blockSize = 4096 then .ok blockSize
  else .error .unsupportedBlockSize

/-- `uint32(..)` truncation. -/
def u32of (n : Nat) : Nat := n % 4294967296

/-- `ceilDiv` from ext2.go (`x <= 0` gives 0). -/
def ceilDiv (x y : Nat) : Nat := if x = 0 then 0 else (x + y - 1) / y

/-- `blocksFor`: data blocks needed for `n` bytes. -/
def blocksFor (bsz n : Nat) : Nat := ceilDiv n bsz

/-- The writer's `fileRec` snapshot record.  Type predicates are the Go
`e.Mode & bit != 0` tests (note `ModeBlock = 0o060000` overlaps both the
dir and char bits, and `ModeLink = 0o120000` overlaps the char and block
bits, exactly as in the Go bit tests); `UID`/`GID` are the Go `uint16(..)`
truncations of the 32-bit entry fields. -/
structure FileRec where
  inode : Nat := 0
  path : String := ""
  data : ByteSeq := ByteSeq.empty
  isDir : Bool := false
  isSymlink : Bool := false
  target : String := ""
  isChar : Bool := false
  isBlock : Bool := false
  isFIFO : Bool := false
  rdevMaj : Nat := 0
  rdevMin : Nat := 0
  mtime : Int := 0
  mode : Nat := 0
  uid : Nat := 0
  gid : Nat := 0

/-- The snapshot loop body of `Store`: one `Entry` to one `fileRec`.
`Data` is copied only when no type predicate matched. -/
def fileRecOfEntry (e : Entry) : FileRec :=
  let isDir := e.mode &&& 0o040000 != 0
  let isSymlink := e.mode &&& 0o120000 != 0
  let isChar := e.mode &&& 0o020000 != 0
  let isBlock := e.mode &&& 0o060000 != 0
  let isFIFO := e.mode &&& 0o010000 != 0
  { path := e.name
    isDir := isDir
    mtime := e.mtime
    mode := e.mode &&& 0xFFFF
    uid := e.uid % 65536
    gid := e.gid % 65536
    isSymlink := isSymlink
    isChar := isChar
    isBlock := isBlock
    isFIFO := isFIFO
    target := e.target
    rdevMaj := e.rdevMajor
    rdevMin := e.rdevMinor
    data := if !isDir && !isSymlink && !isChar && !isBlock && !isFIFO then e.data else ByteSeq.empty }

/-- `Store`'s snapshot: sorted keys, skipping the root entry. -/
def snapshotRecs (fs : MemFS) : List FileRec :=
  ((sortStrings fs.names).filter (· ≠ "/")).filterMap
    (fun k => (fs.find? k).map fileRecOfEntry)

/-- First numbering pass: directories get inode numbers from 3 up. -/
def assignDirs : Nat → List FileRec → Nat × List FileRec
  | n, [] => (n, [])
  | n, r :: rest =>
    if r.isDir then
      let (n', rest') := assignDirs (n + 1) rest
      (n', { r with inode := n } :: rest')
    else
      let (n', rest') := assignDirs n rest
      (n', r :: rest')

/-- Second numbering pass: every still-unnumbered record. -/
def assignRest : Nat → List FileRec → Nat × List FileRec
  | n, [] => (n, [])
  | n, r :: rest =>
    if r.inode = 0 then
      let (n', rest') := assignRest (n + 1) rest
      (n', { r with inode := n } :: rest')
    else
      let (n', rest') := assignRest n rest
      (n', r :: rest')

/-- Both numbering passes; returns the next unused inode number and the
numbered records. -/
def numberRecs (recs : List FileRec) : Nat × List FileRec :=
  let (n1, recs1) := assignDirs 3 recs
  assignRest n1 recs1

/-- The `children` map: records whose parent path is `d`, in record
order. -/
def childrenOf (all : List FileRec) (d : String) : List FileRec :=
  all.filter (fun r => pathDir r.path == d)

/-- `dirLinks`: `uint16(2 + count(immediate subdirectories))`. -/
def dirLinks (all : List FileRec) (r : FileRec) : Nat :=
  (2 + ((childrenOf all r.path).filter (·.isDir)).length) % 65536

/-- The `ft` switch of `buildDirPayload`. -/
def dirFileType (ch : FileRec) : Nat :=
  if ch.isDir then 2
  else if ch.isSymlink then 7
  else if ch.isChar then 3
  else if ch.isBlock then 4
  else if ch.isFIFO then 5
  else 1

/-- The `parIno` scan of `buildDirPayload`: the record whose path is the
directory's parent, falling back to the root inode 2. -/
def parentInodeOf (all : List FileRec) (dirPath : String) : Nat :=
  if dirPath = "/" then 2
  else match all.find? (fun pr => pr.path == pathDir dirPath) with
    | some pr => pr.inode
    | none => 2

/-- Insertion into a path-sorted record list. -/
def insertRec (x : FileRec) : List FileRec → List FileRec
  | [] => [x]
  | y :: ys => if strLt x.path y.path then x :: y :: ys else y :: insertRec x ys

/-- `sort.Slice(chs, by Path)` (paths are unique). -/
def sortRecsByPath (l : List FileRec) : List FileRec := l.foldr insertRec []

/-- One serialised directory record: 8-byte header, name bytes, zero fill
up to the chosen record length. -/
def direntBytes (ino rl nl ft : Nat) (nm : String) : ByteSeq :=
  ByteSeq.append
    (ByteSeq.ofList (u32le ino ++ u16le rl ++ [nl % 256, ft % 256] ++ strBytes nm))
    ⟨rl - (8 + (strBytes nm).length), fun _ => 0⟩

/-- The packing loop of `buildDirPayload` over `(inode, filetype, name)`
entries: 4-byte-aligned record lengths; when a record would cross a block
boundary the remainder of the block is ZERO-FILLED (the previous record
length is left unchanged) and the record starts at the next block; a
record ending exactly at a boundary, and the final record, absorb the
rest of their block. -/
def packEnts (bsz : Nat) : Nat → List (Nat × Nat × String) → ByteSeq
  | blockPos, [] => if blockPos ≠ 0 then ⟨bsz - blockPos, fun _ => 0⟩ else ByteSeq.empty
  | blockPos, (ino, ft, nm) :: rest =>
    let nl := (strBytes nm).length
    let rec0 := 8 + nl
    let rec1 := if rec0 % 4 ≠ 0 then rec0 + (4 - rec0 % 4) else rec0
    let (pad, pos) :=
      if blockPos + rec1 > bsz ∧ blockPos > 0
      then ((⟨bsz - blockPos, fun _ => 0⟩ : ByteSeq), (0 : Nat))
      else (ByteSeq.empty, blockPos)
    let useRec := if pos + rec1 = bsz ∨ rest.isEmpty then bsz - pos else rec1
    let pos' := pos + useRec
    ByteSeq.append pad (ByteSeq.append (direntBytes ino useRec nl ft nm)
      (packEnts bsz (if pos' = bsz then 0 else pos') rest))

/-- `buildDirPayload`: `.`, `..` and the name-sorted children. -/
def buildDirPayload (bsz : Nat) (all : List FileRec) (selfIno : Nat) (dirPath : String) : ByteSeq :=
  let chs := sortRecsByPath (childrenOf all dirPath)
  let list := (selfIno, 2, ".") :: (parentInodeOf all dirPath, 2, "..")
    :: chs.map (fun ch => (ch.inode, dirFileType ch, pathBase ch.path))
  packEnts bsz 0 list

/-- The payload the writer emits for a directory record. -/
def dirPayloadOf (bsz : Nat) (all : List FileRec) (r : FileRec) : ByteSeq :=
  buildDirPayload bsz all r.inode r.path

/-- An allocation `plan`: assigned data blocks plus indirect pointer
blocks per level; `-1` marks a pointer block as needed but not yet
assigned, matching the Go sentinel. -/
structure Plan where
  data : List Nat := []
  ind1 : Int := 0
  ind2Root : Int := 0
  ind2L1 : List Int := []
  ind3Root : Int := 0
  ind3L2 : List Int := []
  ind3L1 : List Int := []
deriving DecidableEq, Repr

/-- `planForDataBlocks`: how many pointer blocks each indirection level
needs for `n` data blocks, with `ptrsPer = block_size/4`. -/
def planForDataBlocks (ptrsPer n : Nat) : Plan :=
  if n ≤ 12 then {}
  else
    let rem := n - 12
    let use1 := min rem ptrsPer
    let ind1 : Int := if 0 < use1 then -1 else 0
    let rem := rem - use1
    let (ind2Root, ind2L1, rem) :=
      if 0 < rem then
        let use2 := min rem (ptrsPer * ptrsPer)
        if 0 < use2 then
          ((-1 : Int), (List.replicate (ceilDiv use2 ptrsPer) (0 : Int)), rem - use2)
        else ((0 : Int), [], rem)
      else ((0 : Int), [], rem)
    let (ind3Root, ind3L2, ind3L1) :=
      if 0 < rem then
        let use3 := min rem (ptrsPer * ptrsPer * ptrsPer)
        if 0 < use3 then
          ((-1 : Int), (List.replicate (ceilDiv use3 (ptrsPer * ptrsPer)) (0 : Int)),
            (List.replicate (ceilDiv use3 ptrsPer) (0 : Int)))
        else ((0 : Int), [], [])
      else ((0 : Int), [], [])
    { data := [], ind1 := ind1, ind2Root := ind2Root, ind2L1 := ind2L1,
      ind3Root := ind3Root, ind3L2 := ind3L2, ind3L1 := ind3L1 }

/-- `countPtr`: total pointer blocks of a plan. -/
def countPtr (pl : Plan) : Nat :=
  (if pl.ind1 = -1 then 1 else 0)
  + (if pl.ind2Root = -1 then 1 + pl.ind2L1.length else 0)
  + (if pl.ind3Root = -1 then 1 + pl.ind3L2.length + pl.ind3L1.length else 0)

/-- The data-block count of a record: directory payload size, external
symlink target size, zero for inline symlinks and device/fifo nodes,
file data size otherwise (the order of the tests is the Go switch
order, so records with the dir bit set take the directory branch). -/
def recDataBlocks (bsz : Nat) (all : List FileRec) (r : FileRec) : Nat :=
  if r.isDir then blocksFor bsz (dirPayloadOf bsz all r).size
  else if r.isSymlink then
    if (strBytes r.target).length ≤ 60 then 0
    else blocksFor bsz (strBytes r.target).length
  else if r.isChar || r.isBlock || r.isFIFO then 0
  else blocksFor bsz r.data.size

/-- `allocData`: `n` consecutive block numbers from the cursor. -/
def allocSeq (cur n : Nat) : Nat × List Nat :=
  (cur + n, (List.range n).map (cur + ·))

/-- `allocPtr`: assign consecutive block numbers to each pointer block
the plan marked as needed (root first, then the level lists in order). -/
def allocPtr (cur : Nat) (pl : Plan) : Nat × Plan :=
  let s1 := if pl.ind1 = -1 then (cur + 1, { pl with ind1 := Int.ofNat cur }) else (cur, pl)
  let s2 :=
    if s1.2.ind2Root = -1 then
      let a := allocSeq (s1.1 + 1) s1.2.ind2L1.length
      (a.1, { s1.2 with ind2Root := Int.ofNat s1.1, ind2L1 := a.2.map Int.ofNat })
    else s1
  if s2.2.ind3Root = -1 then
    let a2 := allocSeq (s2.1 + 1) s2.2.ind3L2.length
    let a1 := allocSeq a2.1 s2.2.ind3L1.length
    (a1.1,
      { s2.2 with
        ind3Root := Int.ofNat s2.1
        ind3L2 := a2.2.map Int.ofNat
        ind3L1 := a1.2.map Int.ofNat })
  else s2

/-- The per-record allocation loop: data blocks (when any) then pointer
blocks, threading the block cursor. -/
def allocRecs (bsz : Nat) (all : List FileRec) : Nat → List FileRec → Nat × List (FileRec × Plan)
  | cur, [] => (cur, [])
  | cur, r :: rest =>
    let n := recDataBlocks bsz all r
    let pl0 := planForDataBlocks (bsz / 4) n
    let (cur1, dataBlocks) := if 0 < n then allocSeq cur n else (cur, [])
    let (cur2, pl) := allocPtr cur1 { pl0 with data := dataBlocks }
    let (cur3, rest') := allocRecs bsz all cur2 rest
    (cur3, (r, pl) :: rest')

/-- Blocks marked used for a plan's pointer blocks, in `markPtr` order. -/
def markPtrBlocks (pl : Plan) : List Nat :=
  (if pl.ind1 > 0 then [pl.ind1.toNat] else [])
  ++ (if pl.ind2Root > 0 then pl.ind2Root.toNat :: pl.ind2L1.map Int.toNat else [])
  ++ (if pl.ind3Root > 0 then
        pl.ind3Root.toNat :: (pl.ind3L2.map Int.toNat ++ pl.ind3L1.map Int.toNat)
      else [])

/-- One byte of the used-block bitmap: the OR of the bits of the marked
block numbers that land in byte `j`. -/
def bitmapByte (marked : List Nat) (j : Nat) : Nat :=
  (List.range 8).foldl
    (fun acc k => if marked.contains (8 * j + k) then acc ||| (1 <<< k) else acc) 0

/-- A region write into the image (`writeAt`/`copy`): `len` bytes at
`start`, later writes taking precedence as in sequential Go stores. -/
structure Ov where
  start : Nat
  len : Nat
  bytes : Nat → Nat

/-- Byte lookup against a list of region writes, front overlay first. -/
def ovsGet (base : Nat → Nat) : List Ov → Nat → Nat
  | [], i => base i
  | ov :: rest, i =>
    if ov.start ≤ i ∧ i < ov.start + ov.len then ov.bytes (i - ov.start) else ovsGet base rest i

/-- Apply region writes in program order over a zero-initialised buffer:
a later write takes precedence over an earlier one (the writes of `Store`
never overlap), so lookup scans the reversed write list. -/
def applyOvs (base : Nat → Nat) (ovs : List Ov) : Nat → Nat :=
  fun i => ovsGet base ovs.reverse i

/-- `writeBlocks`: scatter a byte sequence across its assigned blocks,
full blocks first, stopping when the data runs out. -/
def writeBlocksGo (bsz : Nat) (data : ByteSeq) : List Nat → Nat → Nat → List Ov
  | [], _, _ => []
  | bn :: rest, pos, left =>
    if left = 0 then []
    else
      let n := min bsz left
      ⟨bn * bsz, n, fun k => data.get (pos + k)⟩ :: writeBlocksGo bsz data rest (pos + n) (left - n)

/-- `writeBlocks` entry point. -/
def writeBlocks (bsz : Nat) (blocks : List Nat) (data : ByteSeq) : List Ov :=
  writeBlocksGo bsz data blocks 0 data.size

/-- The content of one pointer block: consecutive little-endian u32s of
the given block numbers, zero-padded (`k` is the byte offset). -/
def ptrBlockBytes (ptrs : List Nat) (k : Nat) : Nat :=
  leByte (ptrs.getD (k / 4) 0) (k % 4)

/-- `writePointers`: populate the inode's 15-slot pointer array (≤12
direct entries, slots 12/13/14 for the indirect roots) and emit the
pointer-block writes for every indirection level. -/
def writePointers (bsz : Nat) (pl : Plan) (dataBlocks : List Nat) (ino0 : InodeRec) :
    InodeRec × List Ov := Id.run do
  let mut ino := ino0
  let mut ovs : List Ov := []
  let d := min dataBlocks.length 12
  for i in List.range d do
    ino := { ino with block := ino.block.set i (dataBlocks.getD i 0) }
  let mut idx := d
  if idx ≥ dataBlocks.length then return (ino, ovs)
  let ptrsPer := bsz / 4
  if pl.ind1 > 0 then
    ino := { ino with block := ino.block.set 12 pl.ind1.toNat }
    let n := min (dataBlocks.length - idx) ptrsPer
    ovs := ovs ++ [⟨pl.ind1.toNat * bsz, bsz, ptrBlockBytes ((dataBlocks.drop idx).take n)⟩]
    idx := idx + n
    if idx ≥ dataBlocks.length then return (ino, ovs)
  if pl.ind2Root > 0 then
    ino := { ino with block := ino.block.set 13 pl.ind2Root.toNat }
    ovs := ovs ++ [⟨pl.ind2Root.toNat * bsz, bsz, ptrBlockBytes (pl.ind2L1.map Int.toNat)⟩]
    for l1blk in pl.ind2L1 do
      if idx < dataBlocks.length then
        let chunk := (dataBlocks.drop idx).take ptrsPer
        ovs := ovs ++ [⟨l1blk.toNat * bsz, bsz, ptrBlockBytes chunk⟩]
        idx := idx + chunk.length
    if idx ≥ dataBlocks.length then return (ino, ovs)
  if pl.ind3Root > 0 then
    ino := { ino with block := ino.block.set 14 pl.ind3Root.toNat }
    ovs := ovs ++ [⟨pl.ind3Root.toNat * bsz, bsz, ptrBlockBytes (pl.ind3L2.map Int.toNat)⟩]
    let mut l1Idx := 0
    let mut outer := false
    for l2blk in pl.ind3L2 do
      if ¬ outer then
        let countL1 := min ptrsPer (pl.ind3L1.length - l1Idx)
        let l1List := (pl.ind3L1.drop l1Idx).take countL1
        ovs := ovs ++ [⟨l2blk.toNat * bsz, bsz, ptrBlockBytes (l1List.map Int.toNat)⟩]
        let mut inner := false
        for l1blk in l1List do
          if ¬ inner then
            let chunk := (dataBlocks.drop idx).take ptrsPer
            ovs := ovs ++ [⟨l1blk.toNat * bsz, bsz, ptrBlockBytes chunk⟩]
            idx := idx + chunk.length
            if idx ≥ dataBlocks.length then inner := true
        l1Idx := l1Idx + countL1
        if idx ≥ dataBlocks.length then outer := true
  return (ino, ovs)

end Ext2

namespace Ext2

/-! ## Writer: inode construction and image assembly -/

/-- Serialise the superblock record the writer fills in (all other
struct fields are Go zero values). -/
def sbBytes (sb : Superblock) (o : Nat) : Nat :=
  if o < 4 then leByte sb.inodesCount o
  else if o < 8 then leByte sb.blocksCount (o - 4)
  else if o < 12 then 0
  else if o < 16 then leByte sb.freeBlocksCount (o - 12)
  else if o < 20 then leByte sb.freeInodesCount (o - 16)
  else if o < 24 then leByte sb.firstDataBlock (o - 20)
  else if o < 28 then leByte sb.logBlockSize (o - 24)
  else if o < 32 then 0
  else if o < 36 then leByte sb.blocksPerGroup (o - 32)
  else if o < 40 then 0
  else if o < 44 then leByte sb.inodesPerGroup (o - 40)
  else if o < 48 then leByte sb.mtime (o - 44)
  else if o < 52 then leByte sb.wtime (o - 48)
  else if o < 56 then 0
  else if o < 58 then leByte sb.magic (o - 56)
  else if o < 60 then leByte sb.state (o - 58)
  else if o < 76 then 0
  else if o < 80 then leByte sb.revLevel (o - 76)
  else if o < 84 then 0
  else if o < 88 then leByte sb.firstIno (o - 84)
  else if o < 90 then leByte sb.inodeSize (o - 88)
  else 0

/-- Serialise the group descriptor (remaining fields zero). -/
def gdBytes (gd : GroupDesc) (o : Nat) : Nat :=
  if o < 4 then leByte gd.blockBitmap o
  else if o < 8 then leByte gd.inodeBitmap (o - 4)
  else if o < 12 then leByte gd.inodeTable (o - 8)
  else 0

/-- Serialise a 128-byte inode record. -/
def inoBytes (r : InodeRec) (o : Nat) : Nat :=
  if o < 2 then leByte r.mode o
  else if o < 4 then leByte r.uid (o - 2)
  else if o < 8 then leByte r.size (o - 4)
  else if o < 12 then leByte r.atime (o - 8)
  else if o < 16 then leByte r.ctime (o - 12)
  else if o < 20 then leByte r.mtime (o - 16)
  else if o < 24 then leByte r.dtime (o - 20)
  else if o < 26 then leByte r.gid (o - 24)
  else if o < 28 then leByte r.linksCount (o - 26)
  else if o < 32 then leByte r.blocks (o - 28)
  else if o < 36 then leByte r.flags (o - 32)
  else if o < 40 then leByte r.osd1 (o - 36)
  else if o < 100 then leByte (r.block.getD ((o - 40) / 4) 0) ((o - 40) % 4)
  else if o < 104 then leByte r.gen (o - 100)
  else if o < 108 then leByte r.fileACL (o - 104)
  else if o < 112 then leByte r.dirACL (o - 108)
  else if o < 116 then leByte r.faddr (o - 112)
  else 0

/-- The hand-built root inode (`rootIno` in `Store`): mode `dir|0755`,
owner root, timestamps `now`, and a FIXED links count of 2 — the
subdirectory count is not consulted for the root. -/
def mkRootInode (now payloadLen : Nat) : InodeRec :=
  { mode := 0x4000 ||| 0o755
    uid := 0, gid := 0
    size := u32of payloadLen
    atime := now, ctime := now, mtime := now
    linksCount := 2
    blocks := u32of (ceilDiv payloadLen 512) }

/-- The inode the writer builds for a non-root directory record:
links count from `dirLinks` (2 + immediate subdirectories). -/
def mkDirInode (all : List FileRec) (r : FileRec) (dataLen : Nat) : InodeRec :=
  let ts := u32ofTime r.mtime
  { mode := (r.mode &&& 0xFFFF) ||| 0x4000
    uid := r.uid, gid := r.gid
    size := u32of dataLen
    atime := ts, ctime := ts, mtime := ts
    linksCount := dirLinks all r
    blocks := u32of (ceilDiv dataLen 512) }

/-- The inode for an inline symlink (target ≤ 60 bytes): the target is
packed into the pointer array, `Blocks` is 0 and `Size` is the target
length. -/
def mkInlineSymlinkInode (r : FileRec) : InodeRec :=
  let ts := u32ofTime r.mtime
  { mode := (r.mode &&& 0xFFFF) ||| 0xA000
    uid := r.uid, gid := r.gid
    size := u32of (strBytes r.target).length
    atime := ts, ctime := ts, mtime := ts
    linksCount := 1
    blocks := 0
    block := inlineSymlinkPack r.target }

/-- The inode for an external symlink (target > 60 bytes). -/
def mkExtSymlinkInode (r : FileRec) (dataLen : Nat) : InodeRec :=
  let ts := u32ofTime r.mtime
  { mode := (r.mode &&& 0xFFFF) ||| 0xA000
    uid := r.uid, gid := r.gid
    size := u32of dataLen
    atime := ts, ctime := ts, mtime := ts
    linksCount := 1
    blocks := u32of (ceilDiv dataLen 512) }

/-- The inode for char/block/fifo records: device numbers packed as
`(major<<8)|(minor&0xff)` into pointer slot 0 for char and block nodes. -/
def mkDevInode (r : FileRec) : InodeRec :=
  let ts := u32ofTime r.mtime
  let typ := if r.isChar then 0x2000 else if r.isBlock then 0x6000 else 0x1000
  let blk0 := if r.isChar || r.isBlock then u32of ((r.rdevMaj <<< 8) ||| (r.rdevMin &&& 0xff)) else 0
  { mode := (r.mode &&& 0xFFFF) ||| typ
    uid := r.uid, gid := r.gid
    size := 0
    atime := ts, ctime := ts, mtime := ts
    linksCount := 1
    blocks := 0
    block := (List.replicate 15 0).set 0 blk0 }

/-- The inode for a regular-file record. -/
def mkFileInode (r : FileRec) : InodeRec :=
  let ts := u32ofTime r.mtime
  { mode := (r.mode &&& 0xFFFF) ||| 0x8000
    uid := r.uid, gid := r.gid
    size := u32of r.data.size
    atime := ts, ctime := ts, mtime := ts
    linksCount := 1
    blocks := u32of (ceilDiv r.data.size 512) }

/-- `writeInode`: the 128-byte inode record write at
`inodeTableBlk*bsz + (n-1)*128`. -/
def inodeOv (bsz inodeTableBlk n : Nat) (rec : InodeRec) : Ov :=
  ⟨inodeTableBlk * bsz + (n - 1) * inodeStructSize, inodeStructSize, inoBytes rec⟩

/-- The write-phase switch for one record: payload blocks, pointer
blocks and the inode record. -/
def recOverlays (bsz inodeTableBlk : Nat) (all : List FileRec) (rp : FileRec × Plan) : List Ov :=
  let r := rp.1
  let pl := rp.2
  if r.isDir then
    let data := dirPayloadOf bsz all r
    let (ino, povs) := writePointers bsz pl pl.data (mkDirInode all r data.size)
    writeBlocks bsz pl.data data ++ povs ++ [inodeOv bsz inodeTableBlk r.inode ino]
  else if r.isSymlink then
    if (strBytes r.target).length ≤ 60 then
      [inodeOv bsz inodeTableBlk r.inode (mkInlineSymlinkInode r)]
    else
      let data := strBytes r.target
      let (ino, povs) := writePointers bsz pl pl.data (mkExtSymlinkInode r data.length)
      writeBlocks bsz pl.data (ByteSeq.ofList data) ++ povs ++ [inodeOv bsz inodeTableBlk r.inode ino]
  else if r.isChar || r.isBlock || r.isFIFO then
    [inodeOv bsz inodeTableBlk r.inode (mkDevInode r)]
  else
    let (ino, povs) := writePointers bsz pl pl.data (mkFileInode r)
    writeBlocks bsz pl.data r.data ++ povs ++ [inodeOv bsz inodeTableBlk r.inode ino]

end Ext2

namespace Ext2

/-- The body of `Store` after the block-size switch: snapshot, inode
numbering, directory payloads, the linear block layout (fixed metadata
prefix, root payload, then per-record data and pointer blocks), bitmap
marking, and all region writes into a zero-filled image of
`totalBlocks*bsz` bytes.

The Go counting pass accumulates `totalData`/`totalPtr` but never
compares them (or `totalBlocks`) against any block-group capacity: the
only size-related failure the writer can hit is the bitmap-marking
index panic modelled by the `panicOutOfRange` check below (`markBlk`
writes `blkMap[bn/8]` into a single `bsz`-byte slice, and `markIno`
writes `inoMap[(n-1)/8]`). -/
def buildImage (now : Nat) (fs : MemFS) (bsz : Nat) : Except StoreErr ByteSeq :=
  let numbered := numberRecs (snapshotRecs fs)
  let inodeNum := numbered.1
  let all := numbered.2
  let totalInodes := max (inodeNum - 1) 11
  let gdtBlk := if bsz > 1024 then 1 else 2
  let blkBitmapBlk := gdtBlk + 1
  let inoBitmapBlk := blkBitmapBlk + 1
  let inodeTableBlocks := ceilDiv (totalInodes * inodeStructSize) bsz
  let inodeTableBlk := inoBitmapBlk + 1
  let firstDataBlk := inodeTableBlk + inodeTableBlocks
  let ptrsPer := bsz / 4
  let rootPayload := buildDirPayload bsz all 2 "/"
  let rootBlocks := blocksFor bsz rootPayload.size
  let a1 := allocSeq firstDataBlk rootBlocks
  let rootData := a1.2
  let a2 := allocPtr a1.1 (planForDataBlocks ptrsPer rootBlocks)
  let rootPlan := a2.2
  let a3 := allocRecs bsz all a2.1 all
  let totalBlocks := a3.1
  let recs := a3.2
  let markedBlks := List.range firstDataBlk ++ rootData ++ markPtrBlocks rootPlan
    ++ recs.flatMap (fun rp => rp.2.data ++ markPtrBlocks rp.2)
  let markedInos := 2 :: all.map (·.inode)
  if markedBlks.any (fun bn => bsz ≤ bn / 8) ∨ markedInos.any (fun i => bsz ≤ (i - 1) / 8) then
    .error .panicOutOfRange
  else
    let sb : Superblock :=
      { inodesCount := u32of totalInodes
        blocksCount := u32of totalBlocks
        freeBlocksCount := 0
        freeInodesCount := 0
        firstDataBlock := if bsz = 1024 then 1 else 0
        logBlockSize := if bsz = 1024 then 0 else if bsz = 2048 then 1 else 2
        blocksPerGroup := u32of totalBlocks
        inodesPerGroup := u32of totalInodes
        mtime := now, wtime := now
        magic := 0xEF53
        state := 1
        revLevel := 1
        inodeSize := 128
        firstIno := 11 }
    let gd : GroupDesc :=
      { blockBitmap := u32of blkBitmapBlk
        inodeBitmap := u32of inoBitmapBlk
        inodeTable := u32of inodeTableBlk }
    let rp := writePointers bsz rootPlan rootData (mkRootInode now rootPayload.size)
    let ovs :=
      [Ov.mk 1024 sbSize (sbBytes sb), Ov.mk (gdtBlk * bsz) gdSize (gdBytes gd),
       Ov.mk (blkBitmapBlk * bsz) bsz (bitmapByte markedBlks),
       Ov.mk (inoBitmapBlk * bsz) bsz (bitmapByte (markedInos.map (· - 1)))]
      ++ writeBlocks bsz rootData rootPayload
      ++ rp.2 ++ [inodeOv bsz inodeTableBlk 2 rp.1]
      ++ recs.flatMap (recOverlays bsz inodeTableBlk all)
    .ok ⟨totalBlocks * bsz, applyOvs (fun _ => 0) ovs⟩

/-- `Store`: block-size validation, then the full image build. -/
def ext2Store (now : Nat) (fs : MemFS) (blockSize : Nat) : Except StoreErr ByteSeq :=
  (chooseBsz blockSize).bind (buildImage now fs)

end Ext2

namespace Ext2

/-! ## Concrete inputs used to settle the claims -/

/-- 100-character file name `fff…fD` with final digit `D = i`. -/
def c1name (i : Nat) : String := String.mk (List.replicate 99 'f' ++ [Char.ofNat (48 + i)])

/-- Absolute path of the `i`-th 100-character-named file. -/
def c1path (i : Nat) : String := "/" ++ c1name i

/-- Ten empty regular files with 100-character names in the root
directory: their `.`/`..`/children records need 1104 > 1024 bytes, so
the root payload spans two 1024-byte blocks. -/
def c1tree : MemFS :=
  (List.range 10).foldl
    (fun fs i => fs.putFile (c1path i) ByteSeq.empty (0o100000 ||| 0o644) 0 0 0)
    MemFS.new

/-- The full pipeline on `c1tree`: store at block size 1024, then load. -/
def c1loaded : Option MemFS :=
  (ext2Store 0 c1tree 1024).toOption.bind (fun img => (ext2Load img).toOption)

/-- 60-character file name `xx…xD`. -/
def c2name (i : Nat) : String := String.mk (List.replicate 59 'x' ++ [Char.ofNat (48 + i)])

/-- A directory `/d` with fifteen empty files with 60-character names:
records `12 + 12 + 15*68 = 1044 > 1024` bytes. -/
def c2tree : MemFS :=
  (List.range 15).foldl
    (fun fs i => fs.putFile ("/d/" ++ c2name i) ByteSeq.empty (0o100000 ||| 0o644) 0 0 0)
    (MemFS.new.putDir "/d" 0 0 0)

/-- The numbered writer records of `c2tree` (`/d` is inode 3). -/
def c2all : List FileRec := (numberRecs (snapshotRecs c2tree)).2

/-- The payload the writer builds for `/d`. -/
def c2payload : ByteSeq := buildDirPayload 1024 c2all 3 "/d"

/-- A crafted 6 KiB ext2 image whose root directory (inode 2) contains a
single entry `a` that refers back to inode 2 itself: a directory cycle.
Superblock at 1024 (magic `0xEF53`, revision 1, 1024-byte blocks, inode
record size 128), group descriptor at block 2 with inode table at block
4, root inode at 4224 (mode `0x41ED`, size 1024, data block 5), and the
directory block at 5120 holding one record `(inode 2, reclen 1024,
namelen 1, filetype dir, "a")`. -/
def cycImg : ByteSeq :=
  ⟨6144, fun i =>
    if i = 1080 then 0x53 else if i = 1081 then 0xEF
    else if i = 1100 then 1
    else if i = 1112 then 128
    else if i = 2056 then 4
    else if i = 4224 then 0xED else if i = 4225 then 0x41
    else if i = 4229 then 4
    else if i = 4264 then 5
    else if i = 5120 then 2
    else if i = 5125 then 4
    else if i = 5126 then 1
    else if i = 5127 then 2
    else if i = 5128 then 97
    else 0⟩

/-- A symlink whose target is `8193 * 1024` bytes: its external target
needs 8193 data blocks plus 33 pointer blocks, pushing block numbers
past the 8192 blocks a single 1024-byte block bitmap can mark. -/
def c4symTree : MemFS :=
  MemFS.new.putSymlink "/big" (String.mk (List.replicate 8389632 't')) 0 0 0

/-- One regular file of `8193 * 1024` bytes.  An honest block count for
this tree also exceeds one block group, but the writer's overlapping
mode-bit tests classify the file as a symlink with an empty target, so
it allocates no data blocks at all. -/
def c4fileTree : MemFS :=
  MemFS.new.putFile "/big" ⟨8389632, fun _ => 0⟩ (0o100000 ||| 0o644) 0 0 0

/-- The spec's "single small file" scenario: `/hello.txt`, 13 bytes,
mode `0644`. -/
def helloTree : MemFS :=
  MemFS.new.putFile "/hello.txt" (ByteSeq.ofList (strBytes "Hello, world!"))
    (0o100000 ||| 0o644) 0 0 0

/-- The full pipeline on `helloTree`. -/
def helloLoaded : Option MemFS :=
  (ext2Store 0 helloTree 1024).toOption.bind (fun img => (ext2Load img).toOption)

/-- A crafted 6 KiB image that DECLARES only 2 inodes in its superblock
while the root directory references inode 3, whose record still lies
inside the buffer (a zero-length regular file at offset 4352). -/
def c5img : ByteSeq :=
  ⟨6144, fun i =>
    if i = 1024 then 2
    else if i = 1080 then 0x53 else if i = 1081 then 0xEF
    else if i = 1100 then 1
    else if i = 1112 then 128
    else if i = 2056 then 4
    else if i = 4224 then 0xED else if i = 4225 then 0x41
    else if i = 4229 then 4
    else if i = 4264 then 5
    else if i = 4352 then 0xA4 else if i = 4353 then 0x81
    else if i = 5120 then 3
    else if i = 5125 then 4
    else if i = 5126 then 1
    else if i = 5127 then 1
    else if i = 5128 then 120
    else 0⟩

/-- A root with one subdirectory. -/
def c6tree : MemFS := MemFS.new.putDir "/sub" 0 0 0

/-- A 61-byte symlink target. -/
def t61 : String := String.mk (List.replicate 61 't')

/-- A 60-byte symlink target. -/
def t60 : String := String.mk (List.replicate 60 't')

/-- A tree with one symlink whose target is 61 bytes (external storage). -/
def c7treeExt : MemFS := MemFS.new.putSymlink "/link61" t61 0 0 0

/-- A tree with one symlink whose target is 60 bytes (inline storage). -/
def c7treeInl : MemFS := MemFS.new.putSymlink "/link60" t60 0 0 0

/-- A tree with one empty file owned by uid `65541 = 2^16 + 5` and gid
`131075 = 2*2^16 + 3`. -/
def c10tree : MemFS :=
  MemFS.new.putFile "/u" ByteSeq.empty (0o100000 ||| 0o644) 65541 131075 0

end Ext2

namespace Ext2

/-- A concrete symlink record used to instantiate the C7 theorem. -/
def c7rec : FileRec :=
  ⟨3, "/link60", ByteSeq.empty, false, true, t60, false, false, false, 0, 0, 0, 41471, 0, 0⟩

end Ext2

/-! ## Helper lemmas -/

namespace Ext2

theorem bindOkStore (a : Nat) (f : Nat → Except StoreErr ByteSeq) :
    (Except.ok a : Except StoreErr Nat).bind f = f a := rfl

theorem c4rec_eq (t : String) : fileRecOfEntry ⟨"/big", 41471, 0, 0, 0, ByteSeq.empty, t, 0, 0⟩
    = ⟨0, "/big", ByteSeq.empty, false, true, t, true, true, false, 0, 0, 0, 41471, 0, 0⟩ := by
  dsimp only [fileRecOfEntry]
  rfl

theorem c4snap (t : String) : snapshotRecs (MemFS.new.putSymlink "/big" t 0 0 0)
    = [(⟨0, "/big", ByteSeq.empty, false, true, t, true, true, false, 0, 0, 0, 41471, 0, 0⟩ : FileRec)] := by
  rw [show snapshotRecs (MemFS.new.putSymlink "/big" t 0 0 0)
      = [fileRecOfEntry ⟨"/big", 41471, 0, 0, 0, ByteSeq.empty, t, 0, 0⟩] from rfl, c4rec_eq]

theorem c4_hnum (t : String) : numberRecs (snapshotRecs (MemFS.new.putSymlink "/big" t 0 0 0))
    = (4, [(⟨3, "/big", ByteSeq.empty, false, true, t, true, true, false, 0, 0, 0, 41471, 0, 0⟩ : FileRec)]) := by
  rw [c4snap]; rfl

theorem c4_hrec (t : String) (h : (strBytes t).length = 8389632) : recDataBlocks 1024
    [(⟨3, "/big", ByteSeq.empty, false, true, t, true, true, false, 0, 0, 0, 41471, 0, 0⟩ : FileRec)]
    (⟨3, "/big", ByteSeq.empty, false, true, t, true, true, false, 0, 0, 0, 41471, 0, 0⟩ : FileRec)
    = 8193 := by
  dsimp only [recDataBlocks]
  rw [h]
  rfl

theorem allocPtr_data (cur : Nat) (pl : Plan) : ((allocPtr cur pl).2).data = pl.data := by
  unfold allocPtr
  dsimp only
  split <;> split <;> split <;> rfl

theorem alloc_mem (bsz : Nat) (all : List FileRec) (cur : Nat) (r : FileRec)
    (rest : List FileRec) (k : Nat) (hk : k < recDataBlocks bsz all r) :
    cur + k ∈ (allocRecs bsz all cur (r :: rest)).2.flatMap
      (fun rp => rp.2.data ++ markPtrBlocks rp.2) := by
  have hn : 0 < recDataBlocks bsz all r := Nat.lt_of_le_of_lt (Nat.zero_le k) hk
  simp only [allocRecs, if_pos hn, allocSeq, List.flatMap_cons]
  refine List.mem_append.mpr (Or.inl (List.mem_append.mpr (Or.inl ?_)))
  rw [allocPtr_data]
  exact List.mem_map.mpr ⟨k, List.mem_range.mpr hk, rfl⟩

set_option maxHeartbeats 4000000 in
theorem c4_sym_panic (t : String) (h : (strBytes t).length = 8389632) :
    ext2Store 0 (MemFS.new.putSymlink "/big" t 0 0 0) 1024
      = Except.error StoreErr.panicOutOfRange := by
  have hnum := c4_hnum t
  have hrec := c4_hrec t h
  unfold ext2Store
  rw [show chooseBsz 1024 = Except.ok 1024 from rfl]
  rw [bindOkStore]
  simp only [buildImage, hnum]
  apply if_pos
  left
  rw [List.any_eq_true]
  refine ⟨_, List.mem_append.mpr (Or.inr (alloc_mem 1024 _ _ _ [] 8192 (by rw [hrec]; omega))), ?_⟩
  exact decide_eq_true (by omega)

theorem length_flatten_u32le (vals : List Nat) :
    ((vals.map u32le).flatten).length = 4 * vals.length := by
  induction vals with
  | nil => rfl
  | cons a t ih => simp [u32le, ih]; ring

theorem getD_flatten_u32le (vals : List Nat) (k : Nat) (hk : k < 4 * vals.length) :
    ((vals.map u32le).flatten).getD k 0 = leByte (vals.getD (k / 4) 0) (k % 4) := by
  induction vals generalizing k with
  | nil => simp at hk
  | cons a t ih =>
    simp only [List.map_cons, List.flatten_cons]
    by_cases h4 : k < 4
    · rw [List.getD_append _ _ _ _ (by simp [u32le]; omega)]
      interval_cases k <;> simp [u32le, List.getD]
    · rw [List.getD_append_right _ _ _ _ (by simp [u32le]; omega)]
      have hlen : (u32le a).length = 4 := by simp [u32le]
      rw [hlen, ih (k - 4) (by simp at hk ⊢; omega)]
      have h1 : (k - 4) / 4 = k / 4 - 1 := by omega
      have h2 : (k - 4) % 4 = k % 4 := by omega
      have h3 : k / 4 = (k / 4 - 1) + 1 := by omega
      rw [h1, h2, h3]
      rfl

theorem leByte_combine0 (e0 e1 e2 e3 : Nat) (h0 : e0 < 256) :
    leByte (e0 + 256 * e1 + 65536 * e2 + 16777216 * e3) 0 = e0 := by
  simp [leByte]
  omega

theorem leByte_combine1 (e0 e1 e2 e3 : Nat) (h0 : e0 < 256) (h1 : e1 < 256) :
    leByte (e0 + 256 * e1 + 65536 * e2 + 16777216 * e3) 1 = e1 := by
  simp [leByte]
  omega

theorem leByte_combine2 (e0 e1 e2 e3 : Nat) (h0 : e0 < 256) (h1 : e1 < 256) (h2 : e2 < 256) :
    leByte (e0 + 256 * e1 + 65536 * e2 + 16777216 * e3) 2 = e2 := by
  simp [leByte]
  omega

theorem leByte_combine3 (e0 e1 e2 e3 : Nat) (h0 : e0 < 256) (h1 : e1 < 256) (h2 : e2 < 256)
    (h3 : e3 < 256) :
    leByte (e0 + 256 * e1 + 65536 * e2 + 16777216 * e3) 3 = e3 := by
  simp [leByte]
  omega

theorem getD_map_range (n : Nat) (f : Nat → Nat) (i : Nat) (hi : i < n) :
    ((List.range n).map f).getD i 0 = f i := by
  rw [List.getD_eq_getElem _ _ (by simpa using hi)]
  simp

theorem c7_inline (r : FileRec) (hlen : (strBytes r.target).length ≤ 60)
    (hbytes : ∀ b ∈ strBytes r.target, b < 256) :
    inlineSymlinkFromInode (mkInlineSymlinkInode r) = r.target
    ∧ (mkInlineSymlinkInode r).blocks = 0
    ∧ (mkInlineSymlinkInode r).size = (strBytes r.target).length := by
  have hsize : (mkInlineSymlinkInode r).size = (strBytes r.target).length := by
    simp [mkInlineSymlinkInode, u32of]
    omega
  refine ⟨?_, rfl, hsize⟩
  set l := strBytes r.target with hl
  set L := l.length with hL
  have hbufget : ∀ k, ((l ++ List.replicate 60 0).take 60).getD k 0 < 256 := by
    intro k
    by_cases hk : k < ((l ++ List.replicate 60 0).take 60).length
    · rw [List.getD_eq_getElem _ _ hk]
      have hm := List.getElem_mem hk
      rcases List.mem_append.mp (List.mem_of_mem_take hm) with h | h
      · exact hbytes _ h
      · have := List.eq_of_mem_replicate h
        omega
    · rw [List.getD_eq_default _ _ (by omega)]
      omega
  have hpacklen : (inlineSymlinkPack r.target).length = 15 := by
    simp [inlineSymlinkPack]
  have hraw : ∀ i, i < 60 →
      (((inlineSymlinkPack r.target).map u32le).flatten).getD i 0
        = ((l ++ List.replicate 60 0).take 60).getD i 0 := by
    intro i hi
    rw [getD_flatten_u32le _ _ (by rw [hpacklen]; omega)]
    have hidx : i / 4 < 15 := by omega
    have hp : (inlineSymlinkPack r.target).getD (i / 4) 0
        = ((l ++ List.replicate 60 0).take 60).getD (4 * (i / 4)) 0
          + 256 * ((l ++ List.replicate 60 0).take 60).getD (4 * (i / 4) + 1) 0
          + 65536 * ((l ++ List.replicate 60 0).take 60).getD (4 * (i / 4) + 2) 0
          + 16777216 * ((l ++ List.replicate 60 0).take 60).getD (4 * (i / 4) + 3) 0 := by
      unfold inlineSymlinkPack
      rw [getD_map_range _ _ _ hidx]
    rw [hp]
    have h4 : i % 4 = 0 ∨ i % 4 = 1 ∨ i % 4 = 2 ∨ i % 4 = 3 := by omega
    rcases h4 with h | h | h | h <;> rw [h]
    · rw [leByte_combine0 _ _ _ _ (hbufget _)]
      congr 1
      omega
    · rw [leByte_combine1 _ _ _ _ (hbufget _) (hbufget _)]
      congr 1
      omega
    · rw [leByte_combine2 _ _ _ _ (hbufget _) (hbufget _) (hbufget _)]
      congr 1
      omega
    · rw [leByte_combine3 _ _ _ _ (hbufget _) (hbufget _) (hbufget _) (hbufget _)]
      congr 1
      omega
  have hrawlen : (((inlineSymlinkPack r.target).map u32le).flatten).length = 60 := by
    rw [length_flatten_u32le, hpacklen]
  have htake : (((inlineSymlinkPack r.target).map u32le).flatten).take L = l := by
    apply List.ext_getElem
    · simp [hrawlen]
      omega
    · intro i h1 h2
      have hi60 : i < 60 := by
        have := h2
        omega
      have e1 : ((((inlineSymlinkPack r.target).map u32le).flatten).take L)[i]
          = (((inlineSymlinkPack r.target).map u32le).flatten).getD i 0 := by
        rw [List.getD_eq_getElem _ _ (by rw [hrawlen]; omega)]
        exact List.getElem_take _
      rw [e1, hraw i hi60]
      rw [List.getD_eq_getElem _ _ (by simp; omega), List.getElem_take _,
        List.getElem_append_left (by omega), ← List.getD_eq_getElem _ 0,
        List.getD_eq_getElem _ _ h2]
  have hn : min (mkInlineSymlinkInode r).size
      (((mkInlineSymlinkInode r).block.map u32le).flatten).length = L := by
    have hb : (mkInlineSymlinkInode r).block = inlineSymlinkPack r.target := rfl
    rw [hb, hrawlen, hsize]
    omega
  have hmain : inlineSymlinkFromInode (mkInlineSymlinkInode r)
      = strOfBytes ((((inlineSymlinkPack r.target).map u32le).flatten).take L) := by
    simp only [inlineSymlinkFromInode]
    rw [hn, show (mkInlineSymlinkInode r).block = inlineSymlinkPack r.target from rfl]
  rw [hmain, htake, hl]
  simp only [strOfBytes, strBytes, List.map_map]
  have hcomp : (Char.ofNat ∘ Char.toNat) = fun c : Char => c := by
    funext c
    exact Char.ofNat_toNat c
  rw [hcomp]
  show String.mk (r.target.toList.map fun c => c) = r.target
  rw [show (r.target.toList.map fun c : Char => c) = r.target.toList from List.map_id' _]
  rfl

theorem cyc_step (n : Nat) (parent : String) (fs : MemFS) :
    walkDirF cycImg 1024 4096 128 (n + 1) 2 parent fs
      = (walkDirF cycImg 1024 4096 128 n 2 (pathJoin parent "a")
          (fs.putDirMode (pathJoin parent "a") 16877 0 0 0)).bind
        (fun x => Except.ok x) := rfl

end Ext2

/-! ## The claims -/

namespace Ext2

/-- C1: the spec claims `Load(Store(tree))` returns the original tree for
any tree fitting one block group.  It does not: the overlapping memfs mode
bits make `Store`'s switch classify every regular file as a symlink, so a
13-byte `0644` file `/hello.txt` comes back as an empty `0120777` symlink
with its data gone. -/
theorem c1_store_load_destroys_regular_file :
    (helloTree.find? "/hello.txt").map (fun e => (e.mode, e.target, e.data.size))
      = some (0o100644, "", 13)
    ∧ (helloLoaded.bind (fun fs => fs.find? "/hello.txt")).map
        (fun e => (e.mode, e.target, e.data.size)) = some (0o120777, "", 0) :=
  ⟨by decide, by decide⟩

set_option maxRecDepth 100000 in
set_option maxHeartbeats 64000000 in
/-- C2: the spec claims that when a directory's records exceed one block
the last record in each block is extended to the boundary and parsing
recovers the same children.  The writer instead zero-pads the 48-byte
remainder (record lengths stay `[12, 12, 68 × 14]`, `976 < 1024`), and the
reader stops at the zero-inode record, so the 15th child is dropped. -/
theorem c2_dir_packing_drops_children :
    (childrenOf c2all "/d").length = 15
    ∧ c2payload.size = 2048
    ∧ (parseDirents c2payload).map (·.recLen) = [12, 12] ++ List.replicate 14 68
    ∧ (parseDirents c2payload).map (fun e => strOfBytes e.name)
        = [".", ".."] ++ (List.range 14).map c2name :=
  ⟨by decide, by decide, by decide, by decide⟩

set_option maxRecDepth 100000 in
set_option maxHeartbeats 16000000 in
/-- C3: the spec claims the directory walk tracks visited inodes and
terminates on cyclic images.  There is no visited set: on `cycImg`, whose
root contains an entry `a` pointing back to inode 2, the walk recurses
forever — no finite recursion budget suffices. -/
theorem c3_cycle_walk_never_terminates :
    (∀ (fuel : Nat) (parent : String) (fs : MemFS),
      walkDirF cycImg 1024 4096 128 fuel 2 parent fs = .error .fuelOut)
    ∧ (∀ fuel : Nat, ext2LoadFuel cycImg fuel = .error .fuelOut)
    ∧ ext2Load cycImg = .error .fuelOut := by
  have main : ∀ (fuel : Nat) (parent : String) (fs : MemFS),
      walkDirF cycImg 1024 4096 128 fuel 2 parent fs = .error .fuelOut := by
    intro fuel
    induction fuel with
    | zero => intro parent fs; rfl
    | succ n ih =>
      intro parent fs
      rw [cyc_step, ih]
      rfl
  have hload : ∀ fuel : Nat, ext2LoadFuel cycImg fuel = .error .fuelOut := by
    intro fuel
    have h0 : ext2LoadFuel cycImg fuel
        = walkDirF cycImg 1024 4096 128 fuel 2 "/" (MemFS.new.putDir "/" 0 0 0) := rfl
    rw [h0, main]
  exact ⟨main, hload, hload _⟩

/-- C4: the spec claims `Store` fails with `TooManyBlocks` when the image
would need a second block group.  No such error exists (the writer's only
errors are the block-size check and the modeled bitmap-index panic): a
symlink needing 8193 data blocks makes `Store` run past the single block
bitmap — an index-out-of-range panic in Go — while an over-large regular
file is silently accepted because the mode-bit bug zeroes its data. -/
theorem c4_overfull_store_panics :
    (∀ e : StoreErr, e = StoreErr.unsupportedBlockSize ∨ e = StoreErr.panicOutOfRange)
    ∧ (∀ t : String, (strBytes t).length = 8389632 →
        ext2Store 0 (MemFS.new.putSymlink "/big" t 0 0 0) 1024
          = Except.error StoreErr.panicOutOfRange)
    ∧ (ext2Store 0 c4fileTree 1024).isOk = true := by
  refine ⟨?_, c4_sym_panic, by decide⟩
  intro e
  cases e
  · exact Or.inl rfl
  · exact Or.inr rfl

theorem c4_overfull_store_panics_witness :
    (strBytes (String.mk (List.replicate 8389632 't'))).length = 8389632
    ∧ ext2Store 0 c4symTree 1024 = Except.error StoreErr.panicOutOfRange := by
  have hl : (strBytes (String.mk (List.replicate 8389632 't'))).length = 8389632 := by
    unfold strBytes
    rw [List.length_map,
      show (String.mk (List.replicate 8389632 't')).toList = List.replicate 8389632 't' from rfl,
      List.length_replicate]
  exact ⟨hl, c4_overfull_store_panics.2.1 _ hl⟩

set_option maxRecDepth 100000 in
set_option maxHeartbeats 64000000 in
/-- C5 counterexample: `c5img` declares 2 inodes in its superblock while
its root directory references inode 3; the record still lies inside the
buffer, so `Load` decodes it as `/x` instead of failing. -/
theorem c5_counterexample :
    le32at c5img 1024 = 2
    ∧ le32at c5img 5120 = 3
    ∧ (ext2Load c5img).toOption.map MemFS.names = some ["/", "/x"] :=
  ⟨by decide, by decide, by decide⟩

set_option maxRecDepth 100000 in
set_option maxHeartbeats 64000000 in
/-- C5 (amended): `getInode` succeeds exactly when the computed inode
record lies within the buffer — the declared inode count is never
consulted, so only out-of-buffer references fail. -/
theorem c5_amended : ∀ (b : ByteSeq) (itOff isz n : Nat),
    (getInode b itOff isz n).isOk = true ↔ itOff + u32pred n * isz + 128 ≤ b.size := by
  intro b itOff isz n
  by_cases h : itOff + u32pred n * isz + 128 ≤ b.size
  · simp [getInode, readInodeAt, inodeStructSize, h, Except.isOk, Except.toBool]
  · simp [getInode, readInodeAt, inodeStructSize, h, Except.isOk, Except.toBool]

/-- C6 counterexample: storing a root with one subdirectory writes the
root inode's links-count field (byte 5274 of the image) as 2, not the
claimed `2 + 1 = 3`. -/
theorem c6_counterexample :
    ((childrenOf (numberRecs (snapshotRecs c6tree)).2 "/").filter (·.isDir)).length = 1
    ∧ (ext2Store 0 c6tree 1024).toOption.map (fun img => le16at img 5274) = some 2 :=
  ⟨by decide, by decide⟩

set_option maxRecDepth 100000 in
set_option maxHeartbeats 64000000 in
/-- C6 (amended): every non-root directory inode is written with links
count `(2 + number of immediate subdirectories) mod 2^16`, while the root
inode's links count is hardcoded to 2 regardless of its subdirectories. -/
theorem c6_amended :
    (∀ (all : List FileRec) (r : FileRec) (dataLen : Nat),
      inoBytes (mkDirInode all r dataLen) 26 + 256 * inoBytes (mkDirInode all r dataLen) 27
        = (2 + ((childrenOf all r.path).filter (·.isDir)).length) % 65536)
    ∧ (∀ (now payloadLen : Nat),
      inoBytes (mkRootInode now payloadLen) 26 + 256 * inoBytes (mkRootInode now payloadLen) 27
        = 2) := by
  constructor
  · intro all r dataLen
    simp [inoBytes, mkDirInode, dirLinks, leByte]
    omega
  · intro now payloadLen
    simp [inoBytes, mkRootInode, leByte]

/-- C7: a symlink target of at most 60 bytes is packed inline into the
15-entry block array (decoding returns the target, the blocks counter is
0, the size field is the target length, and such a record is assigned 0
data blocks); a longer target is stored externally with
`blocksFor bsz len` data blocks — exactly one for 61 bytes at every
supported block size — and the full store/load pipeline returns both a
61-byte and a 60-byte target unchanged. -/
theorem c7_symlink_inline_boundary :
    (∀ r : FileRec, (strBytes r.target).length ≤ 60 →
        (∀ b ∈ strBytes r.target, b < 256) →
        inlineSymlinkFromInode (mkInlineSymlinkInode r) = r.target
        ∧ (mkInlineSymlinkInode r).blocks = 0
        ∧ (mkInlineSymlinkInode r).size = (strBytes r.target).length)
    ∧ (∀ (bsz : Nat) (all : List FileRec) (r : FileRec),
        r.isDir = false → r.isSymlink = true →
        recDataBlocks bsz all r
          = if (strBytes r.target).length ≤ 60 then 0
            else blocksFor bsz (strBytes r.target).length)
    ∧ (∀ bsz : Nat, bsz = 1024 ∨ bsz = 2048 ∨ bsz = 4096 → blocksFor bsz 61 = 1)
    ∧ (strBytes t61).length = 61
    ∧ (strBytes t60).length = 60
    ∧ ((ext2Store 0 c7treeExt 1024).toOption.bind (fun img => (ext2Load img).toOption)).bind
        (fun fs => (fs.find? "/link61").map (fun e => e.target)) = some t61
    ∧ ((ext2Store 0 c7treeInl 1024).toOption.bind (fun img => (ext2Load img).toOption)).bind
        (fun fs => (fs.find? "/link60").map (fun e => e.target)) = some t60 := by
  refine ⟨c7_inline, ?_, ?_, by decide, by decide, by decide, by decide⟩
  · intro bsz all r h1 h2
    simp [recDataBlocks, h1, h2]
  · rintro bsz (rfl | rfl | rfl) <;> decide

theorem c7_symlink_inline_boundary_witness :
    ((strBytes t60).length ≤ 60
      ∧ (∀ b ∈ strBytes t60, b < 256)
      ∧ inlineSymlinkFromInode (mkInlineSymlinkInode c7rec) = t60
      ∧ (mkInlineSymlinkInode c7rec).blocks = 0
      ∧ (mkInlineSymlinkInode c7rec).size = (strBytes t60).length)
    ∧ (c7rec.isDir = false ∧ c7rec.isSymlink = true
      ∧ recDataBlocks 1024 [] c7rec
          = if (strBytes c7rec.target).length ≤ 60 then 0
            else blocksFor 1024 (strBytes c7rec.target).length)
    ∧ ((1024 = 1024 ∨ 1024 = 2048 ∨ 1024 = 4096) ∧ blocksFor 1024 61 = 1) := by
  have h1 : (strBytes t60).length ≤ 60 := by decide
  have h2 : ∀ b ∈ strBytes t60, b < 256 := by decide
  refine ⟨⟨h1, h2, ?_, ?_, ?_⟩,
    ⟨rfl, rfl, c7_symlink_inline_boundary.2.1 1024 [] c7rec rfl rfl⟩,
    ⟨Or.inl rfl, c7_symlink_inline_boundary.2.2.1 1024 (Or.inl rfl)⟩⟩
  · exact (c7_symlink_inline_boundary.1 c7rec h1 h2).1
  · exact (c7_symlink_inline_boundary.1 c7rec h1 h2).2.1
  · exact (c7_symlink_inline_boundary.1 c7rec h1 h2).2.2

set_option maxRecDepth 100000 in
set_option maxHeartbeats 16000000 in
/-- C8: with `ptrsPer = bsz / 4`, a node needing 12 data blocks gets no
pointer blocks, 13 data blocks get exactly one single-indirect block, and
`12 + ptrsPer + 1` data blocks get one single-indirect plus a
double-indirect root with one level-1 block (3 pointer blocks in all),
for every supported block size. -/
theorem c8_indirect_pointer_counts : ∀ bsz : Nat, bsz = 1024 ∨ bsz = 2048 ∨ bsz = 4096 →
    countPtr (planForDataBlocks (bsz / 4) 12) = 0
    ∧ (planForDataBlocks (bsz / 4) 12).ind1 = 0
    ∧ (planForDataBlocks (bsz / 4) 12).ind2Root = 0
    ∧ (planForDataBlocks (bsz / 4) 12).ind3Root = 0
    ∧ countPtr (planForDataBlocks (bsz / 4) 13) = 1
    ∧ (planForDataBlocks (bsz / 4) 13).ind1 = -1
    ∧ (planForDataBlocks (bsz / 4) 13).ind2Root = 0
    ∧ countPtr (planForDataBlocks (bsz / 4) (12 + bsz / 4 + 1)) = 3
    ∧ (planForDataBlocks (bsz / 4) (12 + bsz / 4 + 1)).ind1 = -1
    ∧ (planForDataBlocks (bsz / 4) (12 + bsz / 4 + 1)).ind2Root = -1
    ∧ (planForDataBlocks (bsz / 4) (12 + bsz / 4 + 1)).ind2L1.length = 1
    ∧ (planForDataBlocks (bsz / 4) (12 + bsz / 4 + 1)).ind3Root = 0 := by
  rintro bsz (rfl | rfl | rfl) <;> decide

theorem c8_indirect_pointer_counts_witness :
    (1024 = 1024 ∨ 1024 = 2048 ∨ 1024 = 4096)
    ∧ (countPtr (planForDataBlocks (1024 / 4) 12) = 0
      ∧ (planForDataBlocks (1024 / 4) 12).ind1 = 0
      ∧ (planForDataBlocks (1024 / 4) 12).ind2Root = 0
      ∧ (planForDataBlocks (1024 / 4) 12).ind3Root = 0
      ∧ countPtr (planForDataBlocks (1024 / 4) 13) = 1
      ∧ (planForDataBlocks (1024 / 4) 13).ind1 = -1
      ∧ (planForDataBlocks (1024 / 4) 13).ind2Root = 0
      ∧ countPtr (planForDataBlocks (1024 / 4) (12 + 1024 / 4 + 1)) = 3
      ∧ (planForDataBlocks (1024 / 4) (12 + 1024 / 4 + 1)).ind1 = -1
      ∧ (planForDataBlocks (1024 / 4) (12 + 1024 / 4 + 1)).ind2Root = -1
      ∧ (planForDataBlocks (1024 / 4) (12 + 1024 / 4 + 1)).ind2L1.length = 1
      ∧ (planForDataBlocks (1024 / 4) (12 + 1024 / 4 + 1)).ind3Root = 0) :=
  ⟨Or.inl rfl, c8_indirect_pointer_counts 1024 (Or.inl rfl)⟩

/-- C9: `Store` with block size 0 is not rejected — it produces exactly
the same result as block size 1024 on every tree, and a store at block
size 0 succeeds. -/
theorem c9_blocksize_zero_default :
    (∀ (now : Nat) (fs : MemFS), ext2Store now fs 0 = ext2Store now fs 1024)
    ∧ (ext2Store 0 MemFS.new 0).isOk = true :=
  ⟨fun now fs => rfl, by decide⟩

set_option maxRecDepth 100000 in
set_option maxHeartbeats 64000000 in
/-- C10: the writer keeps only the low 16 bits of uid and gid (the
snapshot already reduces them mod 2^16), so a file owned by
`uid = 65541, gid = 131075` loads back as `uid = 5, gid = 3`. -/
theorem c10_uid_gid_low16 :
    (∀ e : Entry, (fileRecOfEntry e).uid = e.uid % 65536 ∧ (fileRecOfEntry e).gid = e.gid % 65536)
    ∧ (c10tree.find? "/u").map (fun e => (e.uid, e.gid)) = some (65541, 131075)
    ∧ ((ext2Store 0 c10tree 1024).toOption.bind (fun img => (ext2Load img).toOption)).bind
        (fun fs => (fs.find? "/u").map (fun e => (e.uid, e.gid))) = some (5, 3)
    ∧ 65541 % 65536 = 5 ∧ 131075 % 65536 = 3 :=
  ⟨fun _ => ⟨rfl, rfl⟩, by decide, by decide, by decide, by decide⟩

end Ext2
